import Mathlib

/-!
Shallow embedding of the moderation relay webapp (presence map, per-server
command queues, offline global-action store, ban-check audit path), translated
from the Express handlers in the source.

JavaScript `Map` objects are modelled as insertion-ordered association lists;
`Map.set` replaces in place (keeping position) or appends, `Map.delete`
removes the entry, `Map.values()` is the list of values in insertion order.
JS string truthiness (`s || d` falls back on `""`/absent) and number
truthiness (`n || d` falls back on `0`/absent) are modelled explicitly.
-/

namespace Moderation

/-- A JavaScript `Map`, as an insertion-ordered association list. -/
abbrev JsMap (α β : Type) := List (α × β)

/-- `Map.get`: first (unique) entry with the given key. -/
def mapGet {α β : Type} [DecidableEq α] (m : JsMap α β) (k : α) : Option β :=
  match m with
  | [] => none
  | (k', v) :: rest => if k' = k then some v else mapGet rest k

/-- `Map.set`: replace the entry in place if the key exists, else append. -/
def mapSet {α β : Type} [DecidableEq α] (m : JsMap α β) (k : α) (v : β) : JsMap α β :=
  match m with
  | [] => [(k, v)]
  | (k', v') :: rest => if k' = k then (k, v) :: rest else (k', v') :: mapSet rest k v

/-- `Map.delete`: remove the entry with the given key. -/
def mapDelete {α β : Type} [DecidableEq α] (m : JsMap α β) (k : α) : JsMap α β :=
  match m with
  | [] => []
  | (k', v') :: rest => if k' = k then rest else (k', v') :: mapDelete rest k

/-- Well-formedness of a `JsMap` built through `mapSet`/`mapDelete`: keys are
distinct (true of every real JS `Map`). -/
def keysNodup {α β : Type} (m : JsMap α β) : Prop := (m.map Prod.fst).Nodup

/-- JS `s || d` where `s` is an optional string field of the request body:
an absent field and the empty string are falsy. -/
def strOr (s : Option String) (d : String) : String :=
  match s with
  | none => d
  | some v => if v = "" then d else v

/-- JS `n || d` where `n` is an optional numeric field of the request body:
an absent field and `0` are falsy. -/
def numOr (n : Option ℚ) (d : ℚ) : ℚ :=
  match n with
  | none => d
  | some v => if v = 0 then d else v

/-- `userToServer` entry: `{ serverId, lastSeenMs }`. -/
structure PresenceEntry where
  serverId : String
  lastSeenMs : Nat
deriving Repr, DecidableEq

/-- `globalActions` entry: `{ type, reason, moderator, timestamp }`. -/
structure OfflineAction where
  type : String
  reason : String
  moderator : String
  timestamp : Nat
deriving Repr, DecidableEq

/-- A queued command as built by the `/command` handler. The three
warn-specific fields are `none` when the handler did not attach them. -/
structure Command where
  id : String
  action : String
  userId : Nat
  reason : String
  moderator : String
  issuedAt : Nat
  serverId : String
  imageA : Option String
  imageB : Option String
  interval : Option ℚ
deriving Repr, DecidableEq

/-- The process-wide in-memory state: `userToServer`, `serverQueues`,
`globalActions`. User ids are modelled as `Nat` (the JS code stringifies
them for map keys, which is injective on numbers; `0` models a falsy
`userId`). -/
structure ServerState where
  userToServer : JsMap Nat PresenceEntry
  serverQueues : JsMap String (JsMap String Command)
  globalActions : JsMap Nat OfflineAction
deriving Repr, DecidableEq

/-- `getQueue(serverId)`: get-or-create the queue for a server. Creating the
(empty) queue mutates `serverQueues`, as in the source. -/
def getQueue (st : ServerState) (serverId : String) : JsMap String Command × ServerState :=
  match mapGet st.serverQueues serverId with
  | some q => (q, st)
  | none => ([], { st with serverQueues := mapSet st.serverQueues serverId [] })

/-- The pending queue of a destination, as observable through poll/ack
(absent queue and empty queue are indistinguishable). -/
def queueOf (st : ServerState) (serverId : String) : JsMap String Command :=
  (mapGet st.serverQueues serverId).getD []

/-- `GET /whois/:userId`: presence lookup (404 modelled as `none`). -/
def whois (st : ServerState) (userId : Nat) : Option PresenceEntry :=
  mapGet st.userToServer userId

/-- `POST /roblox/register-server`: overwrite the presence entry of every
listed player with this server and the shared `Date.now()`. A player entry
with falsy `userId` (modelled as `0`) is skipped; a falsy `serverId` is a
400 rejection. The Discord notification is a fire-and-forget side effect
and is not modelled. -/
def registerServer (st : ServerState) (serverId : String) (players : List Nat)
    (nowMs : Nat) : Except Unit ServerState :=
  if serverId = "" then .error ()
  else .ok { st with
    userToServer := players.foldl
      (fun m u => if u = 0 then m else mapSet m u ⟨serverId, nowMs⟩) st.userToServer }

/-- `POST /roblox/poll-commands`: first 25 queued commands, read-only on the
queue contents. -/
def pollCommands (st : ServerState) (serverId : String) :
    Except Unit (List Command) × ServerState :=
  if serverId = "" then (.error (), st)
  else
    let p := getQueue st serverId
    (.ok ((p.1.map Prod.snd).take 25), p.2)

/-- `POST /roblox/ack`: delete each acknowledged id from the server's queue
and answer with the remaining count. -/
def ackCommands (st : ServerState) (serverId : String) (ackIds : List String) :
    Except Unit Nat × ServerState :=
  if serverId = "" then (.error (), st)
  else
    let p := getQueue st serverId
    let q := ackIds.foldl (fun acc i => mapDelete acc i) p.1
    (.ok q.length, { p.2 with serverQueues := mapSet p.2.serverQueues serverId q })

/-- `POST /roblox/global-action`: one-time delivery of the pending global
action for a user — read, then delete. -/
def pollOfflineAction (st : ServerState) (userId : Nat) :
    Except Unit (Option OfflineAction) × ServerState :=
  if userId = 0 then (.error (), st)
  else
    match mapGet st.globalActions userId with
    | none => (.ok none, st)
    | some a => (.ok (some a), { st with globalActions := mapDelete st.globalActions userId })

/-- `globalActions.set(userIdStr, {...})` — the Offline Action Store write
performed inside `/command`. -/
def setPending (st : ServerState) (userId : Nat) (a : OfflineAction) : ServerState :=
  { st with globalActions := mapSet st.globalActions userId a }

/-- Request body of `POST /command`. Optional fields model absent body
fields; `userId = 0` models a falsy userId. -/
structure ActionRequest where
  action : String
  userId : Nat
  reason : Option String
  moderator : Option String
  imageA : Option String
  imageB : Option String
  interval : Option ℚ
deriving Repr, DecidableEq

/-- Routing outcome of `POST /command`. -/
inductive RouteResult where
  | badRequest
  | notFound (msg : String)
  | offline
  | routed (serverId : String) (commandId : String)
deriving Repr, DecidableEq

/-- The unconditional Offline Action Store write at the top of `/command`:
`kick` stores a type-`ban` action, `unban` a type-`unban` action, every
other action stores nothing. -/
def offlineStash (st : ServerState) (r : ActionRequest) (nowMs : Nat) : ServerState :=
  if r.action = "kick" then
    setPending st r.userId
      ⟨"ban", strOr r.reason "Rule violation", strOr r.moderator "Discord", nowMs / 1000⟩
  else if r.action = "unban" then
    setPending st r.userId
      ⟨"unban", strOr r.reason "Unbanned", strOr r.moderator "Discord", nowMs / 1000⟩
  else st

/-- The command object built by `/command` for a live destination: warn
commands additionally carry `imageA`/`imageB`/`interval` with JS-falsy
defaulting. -/
def buildCommand (r : ActionRequest) (nowMs : Nat) (freshId : String)
    (destId : String) : Command :=
  let cmd : Command :=
    { id := freshId
      action := r.action
      userId := r.userId
      reason := strOr r.reason ""
      moderator := strOr r.moderator "Discord"
      issuedAt := nowMs / 1000
      serverId := destId
      imageA := none
      imageB := none
      interval := none }
  if r.action = "warn" then
    { cmd with
      imageA := some (strOr r.imageA "WARNING_A")
      imageB := some (strOr r.imageB "WARNING_B")
      interval := some (numOr r.interval 0.35) }
  else cmd

/-- `q.set(cmd.id, cmd)` through `getQueue`: enqueue a command on a
destination's queue. -/
def enqueueState (st : ServerState) (destId : String) (cid : String) (c : Command) :
    ServerState :=
  let p := getQueue st destId
  { p.2 with serverQueues := mapSet p.2.serverQueues destId (mapSet p.1 cid c) }

/-- `POST /command` — the Command Router. `nowMs` is `Date.now()` and
`freshId` the freshly generated UUID. Mirrors the source order: validation,
unconditional offline stash for kick/unban, presence lookup, warn/unwarn
liveness gates, command construction and enqueue. Discord notifications are
fire-and-forget and not modelled. -/
def issueAction (st : ServerState) (r : ActionRequest) (nowMs : Nat) (freshId : String) :
    RouteResult × ServerState :=
  if r.action = "" ∨ r.userId = 0 then (.badRequest, st)
  else
    let st1 := offlineStash st r nowMs
    match mapGet st1.userToServer r.userId with
    | none =>
        if r.action = "warn" ∨ r.action = "unwarn" then
          (.notFound "User not found in any active server", st1)
        else
          (.offline, st1)
    | some entry =>
        if nowMs - entry.lastSeenMs > 2 * 60 * 1000 ∧
            (r.action = "warn" ∨ r.action = "unwarn") then
          (.notFound "User mapping stale; user may have left", st1)
        else
          (.routed entry.serverId freshId,
            enqueueState st1 entry.serverId freshId (buildCommand r nowMs freshId entry.serverId))

/-- A row of the `bans` table as read by `/ban/check`. -/
structure BanRow where
  reason : String
  moderator : String
  bannedAt : Nat
deriving Repr, DecidableEq

/-- Outcome of `/ban/check` as seen by the caller. `dbError` is a database
failure escaping the handler (the caller never receives a JSON verdict). -/
inductive CheckOutcome where
  | badRequest
  | dbError
  | ok (banned : Bool) (reason : Option String)
deriving Repr, DecidableEq

/-- `POST /ban/check`: select from `bans`, then insert the `join_attempts`
audit row, then answer. The two database round trips are modelled as oracle
results; the second component of the result records whether the audit row
was appended. The `botLog` notification on the banned path is fire-and-forget
and not modelled. -/
def checkBan (networkId : String) (userIdFinite : Bool)
    (selectBan : Except Unit (Option BanRow)) (insertJoin : Except Unit Unit) :
    CheckOutcome × Bool :=
  if networkId = "" ∨ userIdFinite = false then (.badRequest, false)
  else
    match selectBan with
    | .error _ => (.dbError, false)
    | .ok ban =>
        match insertJoin with
        | .error _ => (.dbError, false)
        | .ok _ =>
            match ban with
            | some row => (.ok true (some row.reason), true)
            | none => (.ok false none, true)

/-! ### Concrete fixtures used by witnesses and counterexamples -/

/-- A command value for fixtures: action `kick`, no warn fields. -/
def mkCmd (i : Nat) : Command :=
  ⟨toString i, "kick", 1, "", "Discord", 0, "S", none, none, none⟩

/-- A server state with a single one-command queue for destination `S`. -/
def stPollW : ServerState :=
  ⟨[], [("S", [(toString 0, mkCmd 0)])], []⟩

/-- A state in which user 1 has a live, fresh mapping on server `S1`. -/
def stC1 : ServerState := ⟨[(1, ⟨"S1", 1000⟩)], [], []⟩

/-- A bare `kick` request for user 1. -/
def reqKick : ActionRequest := ⟨"kick", 1, none, none, none, none, none⟩

/-- User 1 live on server `S` at time 0. -/
def stC4base : ServerState := ⟨[(1, ⟨"S", 0⟩)], [], []⟩

/-- The state after 26 `kick` commands for user 1 were routed through
`/command` (fresh ids `"0"` … `"25"`): destination `S` has 26 pending
commands. -/
def stC4 : ServerState :=
  (List.range 26).foldl (fun s i => (issueAction s reqKick 0 (toString i)).2) stC4base

/-- The list of commands actually delivered by polling `stC4`. -/
def c4PollList : List Command :=
  match (pollCommands stC4 "S").1 with
  | .ok l => l
  | .error _ => []

/-- A bare `unban` request for user 2. -/
def reqUnban : ActionRequest := ⟨"unban", 2, none, none, none, none, none⟩

/-- A state in which user 9 has a live, fresh mapping on server `S2`. -/
def stLive : ServerState := ⟨[(9, ⟨"S2", 100⟩)], [], []⟩

/-- A `warn` request for user 9 with all warn fields absent. -/
def reqWarn : ActionRequest := ⟨"warn", 9, none, none, none, none, none⟩

/-- A `warn` request for user 9 with falsy warn fields: empty-string images
and explicit interval `0`. -/
def reqWarnFalsy : ActionRequest := ⟨"warn", 9, none, none, some "", some "", some 0⟩

/-! ### Association-list map lemmas -/

theorem mapGet_mapSet {α β : Type} [DecidableEq α] (m : JsMap α β) (k k' : α) (v : β) :
    mapGet (mapSet m k v) k' = if k = k' then some v else mapGet m k' := by
  induction m with
  | nil => simp [mapSet, mapGet]
  | cons p rest ih =>
    obtain ⟨a, b⟩ := p
    by_cases hak : a = k
    · subst hak
      by_cases hk' : a = k' <;> simp [mapSet, mapGet, hk']
    · by_cases hak' : a = k' <;> by_cases hkk' : k = k' <;>
        simp_all [mapSet, mapGet]

theorem mapGet_eq_none_iff {α β : Type} [DecidableEq α] (m : JsMap α β) (k : α) :
    mapGet m k = none ↔ k ∉ m.map Prod.fst := by
  induction m with
  | nil => simp [mapGet]
  | cons p rest ih =>
    obtain ⟨a, b⟩ := p
    by_cases hak : a = k <;> simp_all [mapGet, eq_comm]

theorem mapGet_mem {α β : Type} [DecidableEq α] {m : JsMap α β} {k : α} {v : β}
    (h : mapGet m k = some v) : (k, v) ∈ m := by
  induction m with
  | nil => simp [mapGet] at h
  | cons p rest ih =>
    obtain ⟨a, b⟩ := p
    by_cases hak : a = k
    · subst hak
      simp [mapGet] at h
      simp [h]
    · simp [mapGet, hak] at h
      exact List.mem_cons_of_mem _ (ih h)

theorem mapGet_mapDelete_ne {α β : Type} [DecidableEq α] (m : JsMap α β) {k k' : α}
    (h : k ≠ k') : mapGet (mapDelete m k) k' = mapGet m k' := by
  induction m with
  | nil => rfl
  | cons p rest ih =>
    obtain ⟨a, b⟩ := p
    by_cases hak : a = k
    · subst hak
      simp [mapDelete, mapGet, h]
    · simp [mapDelete, mapGet, hak, ih]

theorem mapGet_mapDelete_self {α β : Type} [DecidableEq α] {m : JsMap α β} (k : α)
    (h : keysNodup m) : mapGet (mapDelete m k) k = none := by
  induction m with
  | nil => rfl
  | cons p rest ih =>
    obtain ⟨a, b⟩ := p
    obtain ⟨hnotin, hrest⟩ := List.nodup_cons.mp h
    by_cases hak : a = k
    · subst hak
      simpa [mapDelete, mapGet_eq_none_iff] using hnotin
    · simp [mapDelete, mapGet, hak, ih hrest]

theorem mapDelete_sublist {α β : Type} [DecidableEq α] (m : JsMap α β) (k : α) :
    (mapDelete m k).Sublist m := by
  induction m with
  | nil => simp [mapDelete]
  | cons p rest ih =>
    obtain ⟨a, b⟩ := p
    by_cases hak : a = k
    · simp only [mapDelete, if_pos hak]
      exact List.sublist_cons_self (a, b) rest
    · simp only [mapDelete, if_neg hak]
      exact ih.cons₂ (a, b)

theorem keysNodup_mapDelete {α β : Type} [DecidableEq α] {m : JsMap α β} (k : α)
    (h : keysNodup m) : keysNodup (mapDelete m k) :=
  ((mapDelete_sublist m k).map Prod.fst).nodup h

theorem mem_keys_mapSet {α β : Type} [DecidableEq α] (m : JsMap α β) (k : α) (v : β)
    (x : α) : x ∈ (mapSet m k v).map Prod.fst ↔ x = k ∨ x ∈ m.map Prod.fst := by
  induction m with
  | nil => simp [mapSet]
  | cons p rest ih =>
    obtain ⟨a, b⟩ := p
    by_cases hak : a = k
    · subst hak
      simp [mapSet]
    · simp [mapSet, hak, ih]
      tauto

theorem keysNodup_mapSet {α β : Type} [DecidableEq α] {m : JsMap α β} (k : α) (v : β)
    (h : keysNodup m) : keysNodup (mapSet m k v) := by
  unfold keysNodup at h ⊢
  induction m with
  | nil => simp [mapSet]
  | cons p rest ih =>
    obtain ⟨a, b⟩ := p
    rw [List.map_cons, List.nodup_cons] at h
    obtain ⟨hnotin, hrest⟩ := h
    by_cases hak : a = k
    · subst hak
      have hms : mapSet ((a, b) :: rest) a v = (a, v) :: rest := by simp [mapSet]
      rw [hms, List.map_cons, List.nodup_cons]
      exact ⟨hnotin, hrest⟩
    · simp only [mapSet, if_neg hak, List.map_cons, List.nodup_cons]
      refine ⟨?_, ih hrest⟩
      intro hmem
      rcases (mem_keys_mapSet rest k v a).mp hmem with h1 | h1
      · exact hak h1
      · exact hnotin h1

theorem mapDelete_eq_filter {α β : Type} [DecidableEq α] {m : JsMap α β} (k : α)
    (h : keysNodup m) : mapDelete m k = m.filter (fun p => decide (p.1 ≠ k)) := by
  induction m with
  | nil => rfl
  | cons p rest ih =>
    obtain ⟨a, b⟩ := p
    obtain ⟨hnotin, hrest⟩ := List.nodup_cons.mp h
    by_cases hak : a = k
    · subst hak
      simp only [mapDelete, if_pos rfl, List.filter_cons]
      have hall : rest.filter (fun p => !decide (p.1 = a)) = rest := by
        refine List.filter_eq_self.mpr ?_
        intro q hq
        have hm : q.1 ∈ rest.map Prod.fst := List.mem_map_of_mem Prod.fst hq
        simp only [Bool.not_eq_true', decide_eq_false_iff_not]
        intro hqk
        exact hnotin (hqk ▸ hm)
      simp only [decide_not]
      simp [hall]
    · simp only [mapDelete, if_neg hak, List.filter_cons]
      simp [hak, ih hrest]

theorem keysNodup_filter {α β : Type} [DecidableEq α] {m : JsMap α β} (p : α × β → Bool)
    (h : keysNodup m) : keysNodup (m.filter p) :=
  ((List.filter_sublist m).map Prod.fst).nodup h

theorem ackFold_eq_filter {α β : Type} [DecidableEq α] (ids : List α) (m : JsMap α β)
    (h : keysNodup m) :
    ids.foldl (fun acc i => mapDelete acc i) m = m.filter (fun p => decide (p.1 ∉ ids)) := by
  induction ids generalizing m with
  | nil => simp
  | cons i ids ih =>
    rw [List.foldl_cons, ih (mapDelete m i) (keysNodup_mapDelete i h),
      mapDelete_eq_filter i h, List.filter_filter]
    refine List.filter_congr ?_
    intro p _
    simp only [List.mem_cons, decide_not, Bool.and_comm]
    simp [not_or, Decidable.not_not, and_comm]

theorem mapGet_filter_of_pred_true {α β : Type} [DecidableEq α] {m : JsMap α β}
    (P : α → Bool) (k : α) (hP : P k = true) :
    mapGet (m.filter (fun p => P p.1)) k = mapGet m k := by
  induction m with
  | nil => rfl
  | cons p rest ih =>
    obtain ⟨a, b⟩ := p
    by_cases hak : a = k
    · subst hak
      simp [List.filter_cons, hP, mapGet]
    · by_cases hPa : P a = true <;> simp [List.filter_cons, hPa, mapGet, hak, ih]

/-! ### State-level helper lemmas -/

theorem setPending_userToServer (st : ServerState) (u : Nat) (a : OfflineAction) :
    (setPending st u a).userToServer = st.userToServer := rfl

theorem setPending_serverQueues (st : ServerState) (u : Nat) (a : OfflineAction) :
    (setPending st u a).serverQueues = st.serverQueues := rfl

theorem offlineStash_userToServer (st : ServerState) (r : ActionRequest) (nowMs : Nat) :
    (offlineStash st r nowMs).userToServer = st.userToServer := by
  unfold offlineStash
  split_ifs <;> rfl

theorem offlineStash_serverQueues (st : ServerState) (r : ActionRequest) (nowMs : Nat) :
    (offlineStash st r nowMs).serverQueues = st.serverQueues := by
  unfold offlineStash
  split_ifs <;> rfl

theorem offlineStash_queueOf (st : ServerState) (r : ActionRequest) (nowMs : Nat)
    (d : String) : queueOf (offlineStash st r nowMs) d = queueOf st d := by
  unfold queueOf
  rw [offlineStash_serverQueues]

theorem offlineStash_of_not_kick_unban (st : ServerState) (r : ActionRequest) (nowMs : Nat)
    (hk : r.action ≠ "kick") (hu : r.action ≠ "unban") :
    offlineStash st r nowMs = st := by
  unfold offlineStash
  rw [if_neg hk, if_neg hu]

theorem getQueue_fst (st : ServerState) (d : String) :
    (getQueue st d).1 = queueOf st d := by
  unfold getQueue queueOf
  cases h : mapGet st.serverQueues d <;> simp [h]

theorem getQueue_queueOf (st : ServerState) (d d' : String) :
    queueOf (getQueue st d).2 d' = queueOf st d' := by
  unfold getQueue queueOf
  cases h : mapGet st.serverQueues d
  · simp only [h, mapGet_mapSet]
    by_cases hdd : d = d'
    · subst hdd
      simp [h]
    · simp [hdd]
  · simp [h]

theorem getQueue_userToServer (st : ServerState) (d : String) :
    (getQueue st d).2.userToServer = st.userToServer := by
  unfold getQueue
  cases h : mapGet st.serverQueues d <;> simp [h]

theorem getQueue_globalActions (st : ServerState) (d : String) :
    (getQueue st d).2.globalActions = st.globalActions := by
  unfold getQueue
  cases h : mapGet st.serverQueues d <;> simp [h]

theorem enqueueState_queueOf_self (st : ServerState) (d : String) (cid : String)
    (c : Command) : queueOf (enqueueState st d cid c) d = mapSet (queueOf st d) cid c := by
  unfold enqueueState
  show (mapGet (mapSet (getQueue st d).2.serverQueues d
    (mapSet (getQueue st d).1 cid c)) d).getD [] = mapSet (queueOf st d) cid c
  rw [mapGet_mapSet, if_pos rfl, Option.getD_some, getQueue_fst]

theorem enqueueState_queueOf_ne (st : ServerState) (d d' : String) (cid : String)
    (c : Command) (h : d ≠ d') :
    queueOf (enqueueState st d cid c) d' = queueOf st d' := by
  unfold enqueueState
  show (mapGet (mapSet (getQueue st d).2.serverQueues d (mapSet (getQueue st d).1 cid c)) d').getD []
    = queueOf st d'
  rw [mapGet_mapSet, if_neg h]
  exact getQueue_queueOf st d d'

theorem enqueueState_userToServer (st : ServerState) (d : String) (cid : String)
    (c : Command) : (enqueueState st d cid c).userToServer = st.userToServer := by
  unfold enqueueState
  exact getQueue_userToServer st d

theorem enqueueState_globalActions (st : ServerState) (d : String) (cid : String)
    (c : Command) : (enqueueState st d cid c).globalActions = st.globalActions := by
  unfold enqueueState
  exact getQueue_globalActions st d

theorem pollCommands_fst (st : ServerState) (d : String) (hd : d ≠ "") :
    (pollCommands st d).1 = .ok (((queueOf st d).map Prod.snd).take 25) := by
  unfold pollCommands
  rw [if_neg hd]
  simp [getQueue_fst]

theorem pollCommands_queueOf (st : ServerState) (d d' : String) (hd : d ≠ "") :
    queueOf (pollCommands st d).2 d' = queueOf st d' := by
  unfold pollCommands
  rw [if_neg hd]
  exact getQueue_queueOf st d d'

theorem pollCommands_userToServer (st : ServerState) (d : String) (hd : d ≠ "") :
    (pollCommands st d).2.userToServer = st.userToServer := by
  unfold pollCommands
  rw [if_neg hd]
  exact getQueue_userToServer st d

theorem pollCommands_globalActions (st : ServerState) (d : String) (hd : d ≠ "") :
    (pollCommands st d).2.globalActions = st.globalActions := by
  unfold pollCommands
  rw [if_neg hd]
  exact getQueue_globalActions st d

theorem ackCommands_fst (st : ServerState) (d : String) (ids : List String) (hd : d ≠ "") :
    (ackCommands st d ids).1
      = .ok (ids.foldl (fun acc i => mapDelete acc i) (queueOf st d)).length := by
  unfold ackCommands
  rw [if_neg hd]
  simp [getQueue_fst]

theorem ackCommands_queueOf_self (st : ServerState) (d : String) (ids : List String)
    (hd : d ≠ "") :
    queueOf (ackCommands st d ids).2 d
      = ids.foldl (fun acc i => mapDelete acc i) (queueOf st d) := by
  unfold ackCommands
  rw [if_neg hd]
  show (mapGet (mapSet (getQueue st d).2.serverQueues d
    (ids.foldl (fun acc i => mapDelete acc i) (getQueue st d).1)) d).getD []
    = ids.foldl (fun acc i => mapDelete acc i) (queueOf st d)
  rw [mapGet_mapSet, if_pos rfl, Option.getD_some, getQueue_fst]

theorem ackCommands_queueOf_ne (st : ServerState) (d d' : String) (ids : List String)
    (hd : d ≠ "") (h : d ≠ d') :
    queueOf (ackCommands st d ids).2 d' = queueOf st d' := by
  unfold ackCommands
  rw [if_neg hd]
  show (mapGet (mapSet (getQueue st d).2.serverQueues d
    (ids.foldl (fun acc i => mapDelete acc i) (getQueue st d).1)) d').getD []
    = queueOf st d'
  rw [mapGet_mapSet, if_neg h]
  exact getQueue_queueOf st d d'

/-! ### Branch lemmas for the Command Router (`/command`) -/

theorem issueAction_offline (st : ServerState) (r : ActionRequest) (nowMs : Nat)
    (fid : String) (ha : r.action ≠ "") (hu : r.userId ≠ 0)
    (hnone : mapGet st.userToServer r.userId = none)
    (hnw : ¬(r.action = "warn" ∨ r.action = "unwarn")) :
    issueAction st r nowMs fid = (.offline, offlineStash st r nowMs) := by
  simp only [issueAction, offlineStash_userToServer, hnone]
  simp [ha, hu, hnw]

theorem issueAction_notFound_noentry (st : ServerState) (r : ActionRequest) (nowMs : Nat)
    (fid : String) (ha : r.action ≠ "") (hu : r.userId ≠ 0)
    (hnone : mapGet st.userToServer r.userId = none)
    (hw : r.action = "warn" ∨ r.action = "unwarn") :
    issueAction st r nowMs fid
      = (.notFound "User not found in any active server", offlineStash st r nowMs) := by
  simp only [issueAction, offlineStash_userToServer, hnone]
  simp [ha, hu, hw]

theorem issueAction_notFound_stale (st : ServerState) (r : ActionRequest) (nowMs : Nat)
    (fid : String) (e : PresenceEntry) (ha : r.action ≠ "") (hu : r.userId ≠ 0)
    (hsome : mapGet st.userToServer r.userId = some e)
    (hstale : nowMs - e.lastSeenMs > 2 * 60 * 1000)
    (hw : r.action = "warn" ∨ r.action = "unwarn") :
    issueAction st r nowMs fid
      = (.notFound "User mapping stale; user may have left", offlineStash st r nowMs) := by
  simp only [issueAction, offlineStash_userToServer, hsome]
  simp [ha, hu, hw, hstale]

theorem issueAction_routed (st : ServerState) (r : ActionRequest) (nowMs : Nat)
    (fid : String) (e : PresenceEntry) (ha : r.action ≠ "") (hu : r.userId ≠ 0)
    (hsome : mapGet st.userToServer r.userId = some e)
    (hok : ¬(nowMs - e.lastSeenMs > 2 * 60 * 1000 ∧
      (r.action = "warn" ∨ r.action = "unwarn"))) :
    issueAction st r nowMs fid
      = (.routed e.serverId fid,
          enqueueState (offlineStash st r nowMs) e.serverId fid
            (buildCommand r nowMs fid e.serverId)) := by
  simp only [issueAction, offlineStash_userToServer, hsome]
  simp [ha, hu, hok]

/-! ### Claim theorems -/

/-- **C4 counterexample**: after 26 `kick` commands were enqueued on
destination `S` through `/command` and none was ever acknowledged, the 26th
enqueued command (id `"25"`) is pending, yet a poll does not include it —
the poll pages at 25 entries, refuting "every poll performed before an
acknowledgement naming the command's id includes the command in its
result". -/
theorem poll_misses_26th_pending_command :
    mapGet (queueOf stC4 "S") "25" = some (buildCommand reqKick 0 "25" "S") ∧
    (pollCommands stC4 "S").1 = .ok c4PollList ∧
    c4PollList.length = 25 ∧
    buildCommand reqKick 0 "25" "S" ∉ c4PollList :=
  ⟨by decide, rfl, by decide, by decide⟩

/-- **C4 (amended)**: a pending command is included in every poll as long as
it sits among the first 25 pending entries (in particular whenever the queue
holds at most 25 commands); polling removes nothing from any queue; after an
acknowledgement naming its id, the command is gone and no subsequent poll of
that destination returns any command with that id, while entries with other
ids are untouched. -/
theorem queue_at_least_once_delivery (st : ServerState) (d : String) (hd : d ≠ "")
    (hnodup : keysNodup (queueOf st d))
    (hids : ∀ p ∈ queueOf st d, (Prod.snd p).id = p.1)
    (cid : String) (c : Command) (hmem : mapGet (queueOf st d) cid = some c) :
    (pollCommands st d).1 = .ok (((queueOf st d).map Prod.snd).take 25) ∧
    ((queueOf st d).length ≤ 25 → c ∈ ((queueOf st d).map Prod.snd).take 25) ∧
    (∀ d', queueOf (pollCommands st d).2 d' = queueOf st d') ∧
    mapGet (queueOf (ackCommands st d [cid]).2 d) cid = none ∧
    (∀ k, k ≠ cid → mapGet (queueOf (ackCommands st d [cid]).2 d) k
      = mapGet (queueOf st d) k) ∧
    (∀ c', c' ∈ ((queueOf (ackCommands st d [cid]).2 d).map Prod.snd).take 25 →
      c'.id ≠ cid) := by
  have hq4 : queueOf (ackCommands st d [cid]).2 d = mapDelete (queueOf st d) cid := by
    rw [ackCommands_queueOf_self st d [cid] hd]
    simp [List.foldl]
  refine ⟨pollCommands_fst st d hd, ?_, fun d' => pollCommands_queueOf st d d' hd,
    ?_, ?_, ?_⟩
  · intro hlen
    rw [List.take_of_length_le (by simpa using hlen)]
    exact List.mem_map_of_mem Prod.snd (mapGet_mem hmem)
  · rw [hq4]
    exact mapGet_mapDelete_self cid hnodup
  · intro k hk
    rw [hq4]
    exact mapGet_mapDelete_ne _ (fun h => hk h.symm)
  · intro c' hc'
    rw [hq4, mapDelete_eq_filter cid hnodup] at hc'
    have hc2 : c' ∈ ((queueOf st d).filter (fun p => decide (p.1 ≠ cid))).map Prod.snd :=
      List.take_subset 25 _ hc'
    obtain ⟨p, hpmem, hpc⟩ := List.mem_map.mp hc2
    have hp1 : p.1 ≠ cid := by
      have := (List.mem_filter.mp hpmem).2
      simpa using this
    have hpq : p ∈ queueOf st d := (List.mem_filter.mp hpmem).1
    rw [← hpc, hids p hpq]
    exact hp1

/-- Witness for `queue_at_least_once_delivery`: a one-command queue, acking
its only command. -/
theorem queue_at_least_once_delivery_witness :
    ("S" : String) ≠ "" ∧ keysNodup (queueOf stPollW "S") ∧
    (∀ p ∈ queueOf stPollW "S", (Prod.snd p).id = p.1) ∧
    mapGet (queueOf stPollW "S") "0" = some (mkCmd 0) ∧
    ((pollCommands stPollW "S").1
        = .ok (((queueOf stPollW "S").map Prod.snd).take 25) ∧
      ((queueOf stPollW "S").length ≤ 25 →
        mkCmd 0 ∈ ((queueOf stPollW "S").map Prod.snd).take 25) ∧
      (∀ d', queueOf (pollCommands stPollW "S").2 d' = queueOf stPollW d') ∧
      mapGet (queueOf (ackCommands stPollW "S" ["0"]).2 "S") "0" = none ∧
      (∀ k, k ≠ "0" → mapGet (queueOf (ackCommands stPollW "S" ["0"]).2 "S") k
        = mapGet (queueOf stPollW "S") k) ∧
      (∀ c', c' ∈ ((queueOf (ackCommands stPollW "S" ["0"]).2 "S").map Prod.snd).take 25 →
        c'.id ≠ "0")) :=
  ⟨by decide, by simp [keysNodup, stPollW, queueOf, mapGet], by decide, by decide,
    queue_at_least_once_delivery stPollW "S" (by decide)
      (by simp [keysNodup, stPollW, queueOf, mapGet]) (by decide) "0" (mkCmd 0)
      (by decide)⟩

/-- **C6**: acknowledgement is idempotent. An ack never errors; the queue
after acking `ids` is exactly the pending entries whose id is not named;
acking the same list twice equals acking it once; ids not present (or already
removed) are silently ignored, leaving every other command's entry unchanged;
duplicate ids in one ack have no extra effect; other destinations' queues are
untouched. -/
theorem ack_idempotent (st : ServerState) (d : String) (hd : d ≠ "") (ids : List String)
    (hnodup : keysNodup (queueOf st d)) :
    (ackCommands st d ids).1 = .ok (queueOf (ackCommands st d ids).2 d).length ∧
    queueOf (ackCommands st d ids).2 d
      = (queueOf st d).filter (fun p => decide (p.1 ∉ ids)) ∧
    queueOf (ackCommands (ackCommands st d ids).2 d ids).2 d
      = queueOf (ackCommands st d ids).2 d ∧
    (∀ k, k ∉ ids → mapGet (queueOf (ackCommands st d ids).2 d) k
      = mapGet (queueOf st d) k) ∧
    queueOf (ackCommands st d ids.dedup).2 d = queueOf (ackCommands st d ids).2 d ∧
    (∀ d', d' ≠ d → queueOf (ackCommands st d ids).2 d' = queueOf st d') := by
  have hfilter : queueOf (ackCommands st d ids).2 d
      = (queueOf st d).filter (fun p => decide (p.1 ∉ ids)) := by
    rw [ackCommands_queueOf_self st d ids hd, ackFold_eq_filter ids _ hnodup]
  refine ⟨?_, hfilter, ?_, ?_, ?_, ?_⟩
  · rw [ackCommands_fst st d ids hd, ackCommands_queueOf_self st d ids hd]
  · rw [ackCommands_queueOf_self _ d ids hd, hfilter,
      ackFold_eq_filter ids _ (keysNodup_filter _ hnodup), List.filter_filter]
    refine List.filter_congr ?_
    intro p _
    exact Bool.and_self _
  · intro k hk
    rw [hfilter]
    exact mapGet_filter_of_pred_true (fun a => decide (a ∉ ids)) k (by simpa using hk)
  · rw [ackCommands_queueOf_self st d _ hd, ackCommands_queueOf_self st d ids hd,
      ackFold_eq_filter _ _ hnodup, ackFold_eq_filter ids _ hnodup]
    refine List.filter_congr ?_
    intro p _
    simp [List.mem_dedup]
  · intro d' hd'
    exact ackCommands_queueOf_ne st d d' ids hd (fun h => hd' h.symm)

/-- Witness for `ack_idempotent`: acking `["0", "missing"]` on a one-command
queue. -/
theorem ack_idempotent_witness :
    ("S" : String) ≠ "" ∧ keysNodup (queueOf stPollW "S") ∧
    ((ackCommands stPollW "S" ["0", "missing"]).1
        = .ok (queueOf (ackCommands stPollW "S" ["0", "missing"]).2 "S").length ∧
      queueOf (ackCommands stPollW "S" ["0", "missing"]).2 "S"
        = (queueOf stPollW "S").filter (fun p => decide (p.1 ∉ ["0", "missing"])) ∧
      queueOf (ackCommands (ackCommands stPollW "S" ["0", "missing"]).2 "S"
          ["0", "missing"]).2 "S"
        = queueOf (ackCommands stPollW "S" ["0", "missing"]).2 "S" ∧
      (∀ k, k ∉ ["0", "missing"] →
        mapGet (queueOf (ackCommands stPollW "S" ["0", "missing"]).2 "S") k
          = mapGet (queueOf stPollW "S") k) ∧
      queueOf (ackCommands stPollW "S" (["0", "missing"] : List String).dedup).2 "S"
        = queueOf (ackCommands stPollW "S" ["0", "missing"]).2 "S" ∧
      (∀ d', d' ≠ "S" →
        queueOf (ackCommands stPollW "S" ["0", "missing"]).2 d' = queueOf stPollW d')) :=
  ⟨by decide, by simp [keysNodup, stPollW, queueOf, mapGet],
    ack_idempotent stPollW "S" (by decide) ["0", "missing"]
      (by simp [keysNodup, stPollW, queueOf, mapGet])⟩

/-- **C1 counterexample**: user 1 has a live, *fresh* mapping (it was seen at
the same millisecond the command is issued), yet issuing `kick` still writes
the Offline Action Store entry for user 1 — in addition to enqueuing the
routed command — refuting "the Offline Action Store entry is written only in
that no-live-mapping case". -/
theorem kick_writes_offline_store_despite_live_mapping :
    whois stC1 1 = some ⟨"S1", 1000⟩ ∧
    (issueAction stC1 reqKick 1000 "cid1").1 = .routed "S1" "cid1" ∧
    mapGet (issueAction stC1 reqKick 1000 "cid1").2.globalActions 1
      = some ⟨"ban", "Rule violation", "Discord", 1⟩ := by decide

/-- **C1 (amended)**: for a validated `kick` or `unban`, the Offline Action
Store entry for the target user is written/overwritten *unconditionally*
(type `ban` for kick, `unban` for unban, with defaulted reason/moderator);
when no presence mapping exists at all the call succeeds with the offline
outcome; when any mapping exists — fresh or stale — the command is moreover
enqueued on the mapped destination's queue and the call reports the routed
outcome. -/
theorem kick_unban_offline_routing (st : ServerState) (r : ActionRequest) (nowMs : Nat)
    (fid : String) (hu : r.userId ≠ 0) (ha : r.action = "kick" ∨ r.action = "unban") :
    (r.action = "kick" → (issueAction st r nowMs fid).2.globalActions
      = mapSet st.globalActions r.userId
          ⟨"ban", strOr r.reason "Rule violation", strOr r.moderator "Discord",
            nowMs / 1000⟩) ∧
    (r.action = "unban" → (issueAction st r nowMs fid).2.globalActions
      = mapSet st.globalActions r.userId
          ⟨"unban", strOr r.reason "Unbanned", strOr r.moderator "Discord",
            nowMs / 1000⟩) ∧
    (mapGet st.userToServer r.userId = none →
      (issueAction st r nowMs fid).1 = .offline) ∧
    (∀ e, mapGet st.userToServer r.userId = some e →
      (issueAction st r nowMs fid).1 = .routed e.serverId fid ∧
      mapGet (queueOf (issueAction st r nowMs fid).2 e.serverId) fid
        = some (buildCommand r nowMs fid e.serverId)) := by
  have ha' : r.action ≠ "" := by rcases ha with h | h <;> rw [h] <;> decide
  have hnw : ¬(r.action = "warn" ∨ r.action = "unwarn") := by
    rcases ha with h | h <;> rw [h] <;> decide
  have hGA : (issueAction st r nowMs fid).2.globalActions
      = (offlineStash st r nowMs).globalActions := by
    cases hms : mapGet st.userToServer r.userId with
    | none => rw [issueAction_offline st r nowMs fid ha' hu hms hnw]
    | some e =>
        have hok : ¬(nowMs - e.lastSeenMs > 2 * 60 * 1000 ∧
            (r.action = "warn" ∨ r.action = "unwarn")) := fun hc => hnw hc.2
        rw [issueAction_routed st r nowMs fid e ha' hu hms hok]
        exact enqueueState_globalActions _ _ _ _
  refine ⟨?_, ?_, ?_, ?_⟩
  · intro hk
    rw [hGA]
    unfold offlineStash
    rw [if_pos hk]
    rfl
  · intro hub
    have hk : ¬(r.action = "kick") := by rw [hub]; decide
    rw [hGA]
    unfold offlineStash
    rw [if_neg hk, if_pos hub]
    rfl
  · intro hnone
    rw [issueAction_offline st r nowMs fid ha' hu hnone hnw]
  · intro e hsome
    have hok : ¬(nowMs - e.lastSeenMs > 2 * 60 * 1000 ∧
        (r.action = "warn" ∨ r.action = "unwarn")) := fun hc => hnw hc.2
    rw [issueAction_routed st r nowMs fid e ha' hu hsome hok]
    refine ⟨rfl, ?_⟩
    show mapGet (queueOf (enqueueState (offlineStash st r nowMs) e.serverId fid
      (buildCommand r nowMs fid e.serverId)) e.serverId) fid = _
    rw [enqueueState_queueOf_self, mapGet_mapSet, if_pos rfl]

/-- Witness for `kick_unban_offline_routing`: `unban` for user 2 with no
presence mapping. -/
theorem kick_unban_offline_routing_witness :
    (2 : Nat) ≠ 0 ∧ (reqUnban.action = "kick" ∨ reqUnban.action = "unban") ∧
    ((reqUnban.action = "kick" →
        (issueAction ⟨[], [], []⟩ reqUnban 2000 "cid2").2.globalActions
        = mapSet (ServerState.mk [] [] []).globalActions reqUnban.userId
            ⟨"ban", strOr reqUnban.reason "Rule violation",
              strOr reqUnban.moderator "Discord", 2000 / 1000⟩) ∧
      (reqUnban.action = "unban" →
        (issueAction ⟨[], [], []⟩ reqUnban 2000 "cid2").2.globalActions
        = mapSet (ServerState.mk [] [] []).globalActions reqUnban.userId
            ⟨"unban", strOr reqUnban.reason "Unbanned",
              strOr reqUnban.moderator "Discord", 2000 / 1000⟩) ∧
      (mapGet (ServerState.mk [] [] []).userToServer reqUnban.userId = none →
        (issueAction ⟨[], [], []⟩ reqUnban 2000 "cid2").1 = .offline) ∧
      (∀ e, mapGet (ServerState.mk [] [] []).userToServer reqUnban.userId = some e →
        (issueAction ⟨[], [], []⟩ reqUnban 2000 "cid2").1 = .routed e.serverId "cid2" ∧
        mapGet (queueOf (issueAction ⟨[], [], []⟩ reqUnban 2000 "cid2").2 e.serverId)
          "cid2" = some (buildCommand reqUnban 2000 "cid2" e.serverId))) :=
  ⟨by decide, Or.inr rfl,
    kick_unban_offline_routing ⟨[], [], []⟩ reqUnban 2000 "cid2" (by decide) (Or.inr rfl)⟩

/-- **C2**: after `setPending(u, A)`, the first `takeOnce`
(`/roblox/global-action`) for `u` returns `A` and atomically deletes it; every
subsequent `takeOnce` for `u` returns null and leaves the state unchanged, so
the same stored action is never delivered twice. -/
theorem offline_action_one_time (st : ServerState) (u : Nat) (A : OfflineAction)
    (hu : u ≠ 0) (hnodup : keysNodup st.globalActions) :
    (pollOfflineAction (setPending st u A) u).1 = .ok (some A) ∧
    mapGet (pollOfflineAction (setPending st u A) u).2.globalActions u = none ∧
    (pollOfflineAction (pollOfflineAction (setPending st u A) u).2 u).1 = .ok none ∧
    (pollOfflineAction (pollOfflineAction (setPending st u A) u).2 u).2
      = (pollOfflineAction (setPending st u A) u).2 := by
  have h2 : mapGet (mapDelete (mapSet st.globalActions u A) u) u = none :=
    mapGet_mapDelete_self u (keysNodup_mapSet u A hnodup)
  refine ⟨?_, ?_, ?_, ?_⟩ <;>
    simp [pollOfflineAction, setPending, hu, mapGet_mapSet, h2]

/-- Witness for `offline_action_one_time` at a concrete state and action. -/
theorem offline_action_one_time_witness :
    (1 : Nat) ≠ 0 ∧ keysNodup (ServerState.mk [] [] []).globalActions ∧
    ((pollOfflineAction (setPending ⟨[], [], []⟩ 1 ⟨"ban", "r", "m", 5⟩) 1).1
        = .ok (some ⟨"ban", "r", "m", 5⟩) ∧
      mapGet (pollOfflineAction (setPending ⟨[], [], []⟩ 1
        ⟨"ban", "r", "m", 5⟩) 1).2.globalActions 1 = none ∧
      (pollOfflineAction (pollOfflineAction (setPending ⟨[], [], []⟩ 1
        ⟨"ban", "r", "m", 5⟩) 1).2 1).1 = .ok none ∧
      (pollOfflineAction (pollOfflineAction (setPending ⟨[], [], []⟩ 1
        ⟨"ban", "r", "m", 5⟩) 1).2 1).2
        = (pollOfflineAction (setPending ⟨[], [], []⟩ 1 ⟨"ban", "r", "m", 5⟩) 1).2) :=
  ⟨by decide, by simp [keysNodup],
    offline_action_one_time ⟨[], [], []⟩ 1 ⟨"ban", "r", "m", 5⟩ (by decide)
      (by simp [keysNodup])⟩

/-- **C3**: a `warn` or `unwarn` issued for a user with no presence entry, or
with an entry older than the 2-minute freshness threshold, is rejected with a
not-found signal and the state is left entirely unchanged. -/
theorem warn_requires_live_mapping (st : ServerState) (r : ActionRequest) (nowMs : Nat)
    (fid : String) (hw : r.action = "warn" ∨ r.action = "unwarn") (hu : r.userId ≠ 0)
    (hdead : mapGet st.userToServer r.userId = none ∨
      ∃ e, mapGet st.userToServer r.userId = some e ∧
        nowMs - e.lastSeenMs > 2 * 60 * 1000) :
    (∃ msg, (issueAction st r nowMs fid).1 = .notFound msg) ∧
    (issueAction st r nowMs fid).2 = st := by
  have ha : r.action ≠ "" := by rcases hw with h | h <;> rw [h] <;> decide
  have hstash : offlineStash st r nowMs = st := by
    refine offlineStash_of_not_kick_unban st r nowMs ?_ ?_
    · rcases hw with h | h <;> rw [h] <;> decide
    · rcases hw with h | h <;> rw [h] <;> decide
  rcases hdead with hnone | ⟨e, hsome, hstale⟩
  · rw [issueAction_notFound_noentry st r nowMs fid ha hu hnone hw, hstash]
    exact ⟨⟨_, rfl⟩, rfl⟩
  · rw [issueAction_notFound_stale st r nowMs fid e ha hu hsome hstale hw, hstash]
    exact ⟨⟨_, rfl⟩, rfl⟩

/-- Witness for `warn_requires_live_mapping`: a stale entry (age 200000 ms)
rejects a warn. -/
theorem warn_requires_live_mapping_witness :
    (("warn" : String) = "warn" ∨ ("warn" : String) = "unwarn") ∧ (7 : Nat) ≠ 0 ∧
    (mapGet (ServerState.mk [(7, ⟨"S1", 0⟩)] [] []).userToServer 7 = none ∨
      ∃ e, mapGet (ServerState.mk [(7, ⟨"S1", 0⟩)] [] []).userToServer 7 = some e ∧
        200000 - e.lastSeenMs > 2 * 60 * 1000) ∧
    ((∃ msg, (issueAction ⟨[(7, ⟨"S1", 0⟩)], [], []⟩
        ⟨"warn", 7, none, none, none, none, none⟩ 200000 "cid").1 = .notFound msg) ∧
      (issueAction ⟨[(7, ⟨"S1", 0⟩)], [], []⟩
        ⟨"warn", 7, none, none, none, none, none⟩ 200000 "cid").2
        = ⟨[(7, ⟨"S1", 0⟩)], [], []⟩) :=
  ⟨Or.inl rfl, by decide, Or.inr ⟨⟨"S1", 0⟩, by decide, by decide⟩,
    warn_requires_live_mapping ⟨[(7, ⟨"S1", 0⟩)], [], []⟩
      ⟨"warn", 7, none, none, none, none, none⟩ 200000 "cid" (Or.inl rfl) (by decide)
      (Or.inr ⟨⟨"S1", 0⟩, by decide, by decide⟩)⟩

/-- **C7**: presence is last-write-wins — `register-server` unconditionally
overwrites the presence entry of each reported user, so reporting user `u` on
`d1` and then on `d2` leaves the lookup returning `d2` with the later
timestamp. -/
theorem presence_last_write_wins (st st1 st2 : ServerState) (u : Nat) (hu : u ≠ 0)
    (d1 d2 : String) (hd1 : d1 ≠ "") (hd2 : d2 ≠ "") (t1 t2 : Nat)
    (h1 : registerServer st d1 [u] t1 = .ok st1)
    (h2 : registerServer st1 d2 [u] t2 = .ok st2) :
    whois st1 u = some ⟨d1, t1⟩ ∧ whois st2 u = some ⟨d2, t2⟩ ∧
    st2.userToServer = mapSet st1.userToServer u ⟨d2, t2⟩ := by
  unfold registerServer at h1 h2
  rw [if_neg hd1] at h1
  rw [if_neg hd2] at h2
  injection h1 with h1
  injection h2 with h2
  subst h1
  subst h2
  refine ⟨?_, ?_, ?_⟩ <;> simp [whois, hu, mapGet_mapSet]

/-- Witness for `presence_last_write_wins` at a concrete pair of reports. -/
theorem presence_last_write_wins_witness :
    (3 : Nat) ≠ 0 ∧ ("D1" : String) ≠ "" ∧ ("D2" : String) ≠ "" ∧
    (registerServer ⟨[], [], []⟩ "D1" [3] 10 = .ok ⟨[(3, ⟨"D1", 10⟩)], [], []⟩) ∧
    (registerServer ⟨[(3, ⟨"D1", 10⟩)], [], []⟩ "D2" [3] 20
      = .ok ⟨[(3, ⟨"D2", 20⟩)], [], []⟩) ∧
    (whois ⟨[(3, ⟨"D1", 10⟩)], [], []⟩ 3 = some ⟨"D1", 10⟩ ∧
      whois ⟨[(3, ⟨"D2", 20⟩)], [], []⟩ 3 = some ⟨"D2", 20⟩ ∧
      (ServerState.mk [(3, ⟨"D2", 20⟩)] [] []).userToServer
        = mapSet (ServerState.mk [(3, ⟨"D1", 10⟩)] [] []).userToServer 3 ⟨"D2", 20⟩) :=
  ⟨by decide, by decide, by decide, rfl, rfl,
    presence_last_write_wins ⟨[], [], []⟩ ⟨[(3, ⟨"D1", 10⟩)], [], []⟩
      ⟨[(3, ⟨"D2", 20⟩)], [], []⟩ 3 (by decide) "D1" "D2" (by decide) (by decide) 10 20
      rfl rfl⟩

/-- **C8**: a poll returns at most 25 commands and is non-destructive — no
pending set of any destination changes, presence and the offline store are
untouched, and an immediately repeated poll returns the same result. -/
theorem poll_capped_nondestructive (st : ServerState) (d : String) (hd : d ≠ "") :
    (pollCommands st d).1 = .ok (((queueOf st d).map Prod.snd).take 25) ∧
    (((queueOf st d).map Prod.snd).take 25).length ≤ 25 ∧
    (∀ d', queueOf (pollCommands st d).2 d' = queueOf st d') ∧
    (pollCommands st d).2.userToServer = st.userToServer ∧
    (pollCommands st d).2.globalActions = st.globalActions ∧
    (pollCommands (pollCommands st d).2 d).1 = (pollCommands st d).1 := by
  refine ⟨pollCommands_fst st d hd, ?_, fun d' => pollCommands_queueOf st d d' hd,
    pollCommands_userToServer st d hd, pollCommands_globalActions st d hd, ?_⟩
  · exact List.length_take_le 25 _
  · rw [pollCommands_fst ((pollCommands st d).2) d hd, pollCommands_queueOf st d d hd,
      pollCommands_fst st d hd]

/-- Witness for `poll_capped_nondestructive` at a concrete one-command queue. -/
theorem poll_capped_nondestructive_witness :
    ("S" : String) ≠ "" ∧
    ((pollCommands stPollW "S").1
        = .ok (((queueOf stPollW "S").map Prod.snd).take 25) ∧
      (((queueOf stPollW "S").map Prod.snd).take 25).length ≤ 25 ∧
      (∀ d', queueOf (pollCommands stPollW "S").2 d' = queueOf stPollW d') ∧
      (pollCommands stPollW "S").2.userToServer = stPollW.userToServer ∧
      (pollCommands stPollW "S").2.globalActions = stPollW.globalActions ∧
      (pollCommands (pollCommands stPollW "S").2 "S").1 = (pollCommands stPollW "S").1) :=
  ⟨by decide, poll_capped_nondestructive stPollW "S" (by decide)⟩

/-- **C9**: for every successfully routed command, the fields
`imageA`/`imageB`/`interval` are attached exactly when the action is `warn`;
a warn issued without these fields gets `interval = 0.35` and the fixed
placeholder image identifiers `WARNING_A`/`WARNING_B`; any other action's
command carries none of these fields. -/
theorem warn_fields_exactly_for_warn (st : ServerState) (r : ActionRequest) (nowMs : Nat)
    (fid : String) (e : PresenceEntry) (ha : r.action ≠ "") (hu : r.userId ≠ 0)
    (hsome : mapGet st.userToServer r.userId = some e)
    (hok : ¬(nowMs - e.lastSeenMs > 2 * 60 * 1000 ∧
      (r.action = "warn" ∨ r.action = "unwarn"))) :
    (issueAction st r nowMs fid).1 = .routed e.serverId fid ∧
    mapGet (queueOf (issueAction st r nowMs fid).2 e.serverId) fid
      = some (buildCommand r nowMs fid e.serverId) ∧
    (r.action = "warn" →
      (buildCommand r nowMs fid e.serverId).imageA = some (strOr r.imageA "WARNING_A") ∧
      (buildCommand r nowMs fid e.serverId).imageB = some (strOr r.imageB "WARNING_B") ∧
      (buildCommand r nowMs fid e.serverId).interval = some (numOr r.interval 0.35)) ∧
    (r.action ≠ "warn" →
      (buildCommand r nowMs fid e.serverId).imageA = none ∧
      (buildCommand r nowMs fid e.serverId).imageB = none ∧
      (buildCommand r nowMs fid e.serverId).interval = none) ∧
    (r.action = "warn" ∧ r.imageA = none ∧ r.imageB = none ∧ r.interval = none →
      (buildCommand r nowMs fid e.serverId).imageA = some "WARNING_A" ∧
      (buildCommand r nowMs fid e.serverId).imageB = some "WARNING_B" ∧
      (buildCommand r nowMs fid e.serverId).interval = some 0.35) := by
  rw [issueAction_routed st r nowMs fid e ha hu hsome hok]
  refine ⟨rfl, ?_, ?_, ?_, ?_⟩
  · show mapGet (queueOf (enqueueState (offlineStash st r nowMs) e.serverId fid
      (buildCommand r nowMs fid e.serverId)) e.serverId) fid = _
    rw [enqueueState_queueOf_self, mapGet_mapSet, if_pos rfl]
  · intro hw
    simp [buildCommand, hw]
  · intro hnw
    simp [buildCommand, hnw]
  · rintro ⟨hw, hA, hB, hI⟩
    simp [buildCommand, hw, hA, hB, hI, strOr, numOr]

/-- Witness for `warn_fields_exactly_for_warn`: a warn for user 9 (live
mapping, all warn fields absent). -/
theorem warn_fields_exactly_for_warn_witness :
    reqWarn.action ≠ "" ∧ (9 : Nat) ≠ 0 ∧
    mapGet stLive.userToServer 9 = some ⟨"S2", 100⟩ ∧
    ¬((100 : Nat) - (100 : Nat) > 2 * 60 * 1000 ∧
      (reqWarn.action = "warn" ∨ reqWarn.action = "unwarn")) ∧
    ((issueAction stLive reqWarn 100 "cid9").1 = .routed "S2" "cid9" ∧
      mapGet (queueOf (issueAction stLive reqWarn 100 "cid9").2 "S2") "cid9"
        = some (buildCommand reqWarn 100 "cid9" "S2") ∧
      buildCommand reqWarn 100 "cid9" "S2" = buildCommand reqWarn 100 "cid9" "S2" ∧
      (buildCommand reqWarn 100 "cid9" "S2").imageA = some "WARNING_A" ∧
      (buildCommand reqWarn 100 "cid9" "S2").imageB = some "WARNING_B" ∧
      (buildCommand reqWarn 100 "cid9" "S2").interval = some 0.35) := by
  have h := warn_fields_exactly_for_warn stLive reqWarn 100 "cid9" ⟨"S2", 100⟩
    (by decide) (by decide) (by decide) (by decide)
  obtain ⟨h1, h2, h3, _, h5⟩ := h
  have hdef := h5 ⟨rfl, rfl, rfl, rfl⟩
  exact ⟨by decide, by decide, by decide, by decide, h1, h2, rfl,
    hdef.1, hdef.2.1, hdef.2.2⟩

/-- **C10**: a warn issued with `interval` explicitly `0`, or with
`imageA`/`imageB` supplied as the empty string, gets the defaults (interval
`0.35`, placeholder image identifiers) in the enqueued command — JS `||`
defaulting applies to every falsy input, not only absent fields. -/
theorem warn_falsy_inputs_defaulted (st : ServerState) (r : ActionRequest) (nowMs : Nat)
    (fid : String) (e : PresenceEntry) (hw : r.action = "warn") (hu : r.userId ≠ 0)
    (hsome : mapGet st.userToServer r.userId = some e)
    (hfresh : nowMs - e.lastSeenMs ≤ 2 * 60 * 1000) :
    (issueAction st r nowMs fid).1 = .routed e.serverId fid ∧
    mapGet (queueOf (issueAction st r nowMs fid).2 e.serverId) fid
      = some (buildCommand r nowMs fid e.serverId) ∧
    (r.interval = some 0 →
      (buildCommand r nowMs fid e.serverId).interval = some 0.35) ∧
    (r.imageA = some "" →
      (buildCommand r nowMs fid e.serverId).imageA = some "WARNING_A") ∧
    (r.imageB = some "" →
      (buildCommand r nowMs fid e.serverId).imageB = some "WARNING_B") := by
  have ha : r.action ≠ "" := by rw [hw]; decide
  have hok : ¬(nowMs - e.lastSeenMs > 2 * 60 * 1000 ∧
      (r.action = "warn" ∨ r.action = "unwarn")) := fun hc => absurd hc.1 (not_lt.mpr hfresh)
  rw [issueAction_routed st r nowMs fid e ha hu hsome hok]
  refine ⟨rfl, ?_, ?_, ?_, ?_⟩
  · show mapGet (queueOf (enqueueState (offlineStash st r nowMs) e.serverId fid
      (buildCommand r nowMs fid e.serverId)) e.serverId) fid = _
    rw [enqueueState_queueOf_self, mapGet_mapSet, if_pos rfl]
  · intro hI
    simp [buildCommand, hw, hI, numOr]
  · intro hA
    simp [buildCommand, hw, hA, strOr]
  · intro hB
    simp [buildCommand, hw, hB, strOr]

/-- Witness for `warn_falsy_inputs_defaulted`: warn with empty-string images
and `interval = 0`. -/
theorem warn_falsy_inputs_defaulted_witness :
    reqWarnFalsy.action = "warn" ∧ (9 : Nat) ≠ 0 ∧
    mapGet stLive.userToServer 9 = some ⟨"S2", 100⟩ ∧
    (100 : Nat) - (100 : Nat) ≤ 2 * 60 * 1000 ∧
    ((issueAction stLive reqWarnFalsy 100 "cidA").1 = .routed "S2" "cidA" ∧
      mapGet (queueOf (issueAction stLive reqWarnFalsy 100 "cidA").2 "S2") "cidA"
        = some (buildCommand reqWarnFalsy 100 "cidA" "S2") ∧
      (buildCommand reqWarnFalsy 100 "cidA" "S2").interval = some 0.35 ∧
      (buildCommand reqWarnFalsy 100 "cidA" "S2").imageA = some "WARNING_A" ∧
      (buildCommand reqWarnFalsy 100 "cidA" "S2").imageB = some "WARNING_B") := by
  have h := warn_falsy_inputs_defaulted stLive reqWarnFalsy 100 "cidA" ⟨"S2", 100⟩
    rfl (by decide) (by decide) (by decide)
  obtain ⟨h1, h2, h3, h4, h5⟩ := h
  exact ⟨rfl, by decide, by decide, by decide, h1, h2, h3 rfl, h4 rfl, h5 rfl⟩

/-- **C5 counterexample**: when the ban read fails, the `join_attempts` audit
insert never runs — it is sequenced strictly after the read — refuting "the
audit write is not skipped when the ban read fails". The call still fails
hard rather than answering `banned = false`. -/
theorem ban_check_read_failure_skips_audit :
    checkBan "net" true (.error ()) (.ok ()) = (.dbError, false) := rfl

/-- **C5 (amended)**: the audit row is appended exactly when the ban read
and the audit insert both succeed — in particular it is appended whether or
not the user is banned; a database failure of either call surfaces as a hard
failure (never a silent `banned = false`); but a ban-read failure skips the
audit write. -/
theorem ban_check_audit_and_failures (networkId : String) (hnet : networkId ≠ "")
    (sel : Except Unit (Option BanRow)) (ins : Except Unit Unit) :
    (∀ row, sel = .ok (some row) → ins = .ok () →
      checkBan networkId true sel ins = (.ok true (some row.reason), true)) ∧
    (sel = .ok none → ins = .ok () →
      checkBan networkId true sel ins = (.ok false none, true)) ∧
    (∀ e, sel = .error e → checkBan networkId true sel ins = (.dbError, false)) ∧
    (∀ ban e, sel = .ok ban → ins = .error e →
      checkBan networkId true sel ins = (.dbError, false)) := by
  have hvalid : ¬(networkId = "" ∨ (true : Bool) = false) := by simp [hnet]
  refine ⟨?_, ?_, ?_, ?_⟩
  · intro row hs hi
    subst hs; subst hi
    unfold checkBan
    rw [if_neg hvalid]
  · intro hs hi
    subst hs; subst hi
    unfold checkBan
    rw [if_neg hvalid]
  · intro err hs
    subst hs
    unfold checkBan
    rw [if_neg hvalid]
  · intro ban err hs hi
    subst hs; subst hi
    unfold checkBan
    rw [if_neg hvalid]

/-- Witness for `ban_check_audit_and_failures`: a successful read finding no
ban and a successful audit insert. -/
theorem ban_check_audit_and_failures_witness :
    ("net" : String) ≠ "" ∧
    ((∀ row, (Except.ok none : Except Unit (Option BanRow)) = .ok (some row) →
        (Except.ok () : Except Unit Unit) = .ok () →
        checkBan "net" true (.ok none) (.ok ())
          = (.ok true (some row.reason), true)) ∧
      ((Except.ok none : Except Unit (Option BanRow)) = .ok none →
        (Except.ok () : Except Unit Unit) = .ok () →
        checkBan "net" true (.ok none) (.ok ()) = (.ok false none, true)) ∧
      (∀ e, (Except.ok none : Except Unit (Option BanRow)) = .error e →
        checkBan "net" true (.ok none) (.ok ()) = (.dbError, false)) ∧
      (∀ ban e, (Except.ok none : Except Unit (Option BanRow)) = .ok ban →
        (Except.ok () : Except Unit Unit) = .error e →
        checkBan "net" true (.ok none) (.ok ()) = (.dbError, false))) :=
  ⟨by decide, ban_check_audit_and_failures "net" (by decide) (.ok none) (.ok ())⟩

end Moderation
